import Mathlib

/-!
Verification of `src/pumpfun_mint_harvest.py`.

Shallow embedding conventions:
* Python `bytes` values are `List Nat` (each element is one byte, `< 256`
  where it matters; the hypotheses of the theorems record that bound).
* Python `str` values are represented by the `List Nat` of their UTF-8
  bytes.  ASCII literals are built with `ascii`.  This is faithful because
  UTF-8 is injective on strings, and the only character-level operation the
  program performs (`str.strip` of NUL characters, `str.lstrip` of `@`)
  acts on single-byte code points, where byte-level and character-level
  stripping coincide on valid UTF-8.
* Fallible Python code (exceptions) returns `Option`; an exception inside
  a `try` block aborts the rest of the block, which the embedding mirrors
  explicitly.
-/

namespace Harvest

/-- UTF-8 / ASCII bytes of a string literal.  Only applied to ASCII
literals, where the code point equals the byte. -/
def ascii (s : String) : List Nat := s.toList.map Char.toNat

/-- Python slice `data[o : o + n]` for a bytes value (nonnegative indices):
it silently truncates at the end of the buffer. -/
def pySlice (data : List Nat) (o n : Nat) : List Nat := (data.drop o).take n

/-- Little-endian 32-bit read, `struct.unpack("<I", bytes([b0,b1,b2,b3]))`. -/
def le32 (b0 b1 b2 b3 : Nat) : Nat :=
  b0 + 256 * b1 + 65536 * b2 + 16777216 * b3

/-- Little-endian 4-byte encoding of a length, `struct.pack("<I", n)`. -/
def lenBytes4 (n : Nat) : List Nat :=
  [n % 256, n / 256 % 256, n / 65536 % 256, n / 16777216 % 256]

/-- Is `c` a UTF-8 continuation byte (0x80..0xBF)? -/
def contB (c : Nat) : Bool := decide (128 ≤ c ∧ c ≤ 191)

/-- Validity of a byte list as UTF-8 (what `bytes.decode("utf-8")` accepts:
no overlong forms, no surrogates, max code point 0x10FFFF). -/
def utf8Valid : List Nat → Bool
  | [] => true
  | b :: rest =>
    if b ≤ 127 then utf8Valid rest
    else if b < 194 then false
    else if b ≤ 223 then
      match rest with
      | c1 :: r => contB c1 && utf8Valid r
      | [] => false
    else if b ≤ 239 then
      match rest with
      | c1 :: c2 :: r =>
        (if b = 224 then decide (160 ≤ c1 ∧ c1 ≤ 191)
         else if b = 237 then decide (128 ≤ c1 ∧ c1 ≤ 159)
         else contB c1) && contB c2 && utf8Valid r
      | _ => false
    else if b ≤ 244 then
      match rest with
      | c1 :: c2 :: c3 :: r =>
        (if b = 240 then decide (144 ≤ c1 ∧ c1 ≤ 191)
         else if b = 244 then decide (128 ≤ c1 ∧ c1 ≤ 143)
         else contB c1) && contB c2 && contB c3 && utf8Valid r
      | _ => false
    else false

/-- Python `s.strip("\x00")`: NUL characters are removed from BOTH ends of
the string (on valid UTF-8 the NUL code point is exactly the 0 byte). -/
def pyStrip0 (l : List Nat) : List Nat :=
  (((l.dropWhile fun b => b == 0).reverse.dropWhile fun b => b == 0)).reverse

/-- Stripping only trailing NUL bytes.  Modelled from the spec wording
"strip trailing NUL bytes", for comparison with what the code does. -/
def stripTrailingNul (l : List Nat) : List Nat :=
  ((l.reverse.dropWhile fun b => b == 0)).reverse

/-- Base58 alphabet used by `solders.pubkey.Pubkey.__str__` (ASCII bytes). -/
def b58Alphabet : List Nat :=
  ascii "123456789ABCDEFGHJKLMNPQRSTUVWXYZabcdefghijkmnopqrstuvwxyz"

/-- Little-endian base-58 digits of `n`; `fuel` bounds the recursion (any
fuel at least log58 of `n` is exact; 32-byte inputs need at most 44). -/
def b58Digits : Nat → Nat → List Nat
  | 0, _ => []
  | fuel + 1, n => if n = 0 then [] else n % 58 :: b58Digits fuel (n / 58)

/-- Base58 rendering of a byte list: big-endian number to base 58, one
leading "1" per leading zero byte.  Models `str(Pubkey.from_bytes(b))`,
which is plain (non-checked) base58 of the 32 raw bytes. -/
def base58Encode (bs : List Nat) : List Nat :=
  let n := bs.foldl (fun a b => a * 256 + b) 0
  let digits := (b58Digits 64 n).reverse
  List.replicate (bs.takeWhile fun b => b == 0).length 49
    ++ digits.map fun d => b58Alphabet.getD d 0

/-- Lowercase hex digit of a value below 16, as in `bytes.hex()`. -/
def hexChar (n : Nat) : Nat := if n < 10 then 48 + n else 87 + n

/-- Hex string (as ASCII bytes) of a byte list: `bytes.hex()`. -/
def bytesToHex : List Nat → List Nat
  | [] => []
  | b :: t => hexChar (b / 16) :: hexChar (b % 16) :: bytesToHex t

/-- Value of one hex digit character, accepting both cases as
`bytes.fromhex` does. -/
def hexVal (c : Nat) : Option Nat :=
  if 48 ≤ c ∧ c ≤ 57 then some (c - 48)
  else if 97 ≤ c ∧ c ≤ 102 then some (c - 87)
  else if 65 ≤ c ∧ c ≤ 70 then some (c - 55)
  else none

/-- Model of `bytes.fromhex` on canonical input (an even run of hex
digits, which is the only shape `bytes.hex()` produces); failure is the
`ValueError` raised on a stray character or odd length. -/
def hexToBytes : List Nat → Option (List Nat)
  | [] => some []
  | [_] => none
  | c1 :: c2 :: t =>
    match hexVal c1, hexVal c2, hexToBytes t with
    | some h, some l, some bs => some ((16 * h + l) :: bs)
    | _, _, _ => none

/-- The decoded event record built by `parse_event_data`.  String fields
hold the UTF-8 bytes of the decoded Python strings; key fields hold the
ASCII bytes of the base58 address strings. -/
structure EventData where
  name : List Nat
  symbol : List Nat
  uri : List Nat
  mint : List Nat
  bonding_curve : List Nat
  user : List Nat
deriving DecidableEq

/-- The inner helper `read_length_prefixed_string(data, offset)`:
`struct.unpack("<I", data[offset:offset+4])` raises unless the slice has
exactly 4 bytes; the string slice `data[offset+4 : offset+4+length]`
silently truncates; `.decode("utf-8")` raises on invalid UTF-8;
`.strip("\x00")` strips NULs from both ends.  Returns the string and the
advanced offset `offset + 4 + length`. -/
def read_length_prefixed_string (data : List Nat) (o : Nat) :
    Option (List Nat × Nat) :=
  match pySlice data o 4 with
  | [b0, b1, b2, b3] =>
    let length := le32 b0 b1 b2 b3
    let string_data := pySlice data (o + 4) length
    if utf8Valid string_data then some (pyStrip0 string_data, o + 4 + length)
    else none
  | _ => none

/-- The inner helper `read_pubkey(data, offset)`:
`Pubkey.from_bytes` raises unless given exactly 32 bytes; `str(...)` is
the base58 rendering. -/
def read_pubkey (data : List Nat) (o : Nat) : Option (List Nat × Nat) :=
  let pubkey_data := pySlice data o 32
  if pubkey_data.length = 32 then some (base58Encode pubkey_data, o + 32)
  else none

/-- Body of `parse_event_data` once the hex string has been turned into
bytes: offset starts at 8 (the event discriminator is skipped), then three
length-prefixed strings and three 32-byte public keys are read in order.
Any exception makes the whole decode fail (the function re-raises). -/
def parseEventBytes (data : List Nat) : Option EventData :=
  match read_length_prefixed_string data 8 with
  | none => none
  | some (name, o1) =>
  match read_length_prefixed_string data o1 with
  | none => none
  | some (symbol, o2) =>
  match read_length_prefixed_string data o2 with
  | none => none
  | some (uri, o3) =>
  match read_pubkey data o3 with
  | none => none
  | some (mint, o4) =>
  match read_pubkey data o4 with
  | none => none
  | some (bonding_curve, o5) =>
  match read_pubkey data o5 with
  | none => none
  | some (user, _o6) =>
    some ⟨name, symbol, uri, mint, bonding_curve, user⟩

/-- `parse_event_data(data_hex)`: `bytes.fromhex` then the sequential
decode; all exceptions are re-raised, i.e. the decode either fully
succeeds or fails as a whole. -/
def parse_event_data (data_hex : List Nat) : Option EventData :=
  match hexToBytes data_hex with
  | none => none
  | some data_bytes => parseEventBytes data_bytes

/-- A synthetic wire-format record: tag, three string fields (raw UTF-8
bytes as placed on the wire) and three key fields (raw bytes). -/
structure WireEvent where
  tag : List Nat
  name : List Nat
  symbol : List Nat
  uri : List Nat
  k1 : List Nat
  k2 : List Nat
  k3 : List Nat

/-- The documented wire format: 8-byte leading tag, then each string
preceded by its 4-byte little-endian length, then the three raw 32-byte
keys. -/
def encodeEvent (e : WireEvent) : List Nat :=
  e.tag ++ lenBytes4 e.name.length ++ e.name
    ++ lenBytes4 e.symbol.length ++ e.symbol
    ++ lenBytes4 e.uri.length ++ e.uri
    ++ e.k1 ++ e.k2 ++ e.k3

/-- Well-formedness of a synthetic wire record: 8-byte tag, in-range
lengths, valid UTF-8 string fields, 32-byte keys, and byte-valued
entries. -/
structure WireEvent.Valid (e : WireEvent) : Prop where
  tag_len : e.tag.length = 8
  name_lt : e.name.length < 4294967296
  symbol_lt : e.symbol.length < 4294967296
  uri_lt : e.uri.length < 4294967296
  name_utf8 : utf8Valid e.name = true
  symbol_utf8 : utf8Valid e.symbol = true
  uri_utf8 : utf8Valid e.uri = true
  k1_len : e.k1.length = 32
  k2_len : e.k2.length = 32
  k3_len : e.k3.length = 32
  bytes_lt : ∀ b ∈ encodeEvent e, b < 256

/-! Base64 (`base64.b64decode` / the canonical encoding). -/

/-- Value of a base64 alphabet character (ASCII byte), if any. -/
def b64Val (c : Nat) : Option Nat :=
  if 65 ≤ c ∧ c ≤ 90 then some (c - 65)
  else if 97 ≤ c ∧ c ≤ 122 then some (c - 71)
  else if 48 ≤ c ∧ c ≤ 57 then some (c + 4)
  else if c = 43 then some 62
  else if c = 47 then some 63
  else none

/-- Base64 alphabet character (ASCII byte) of a 6-bit value. -/
def b64Char (n : Nat) : Nat :=
  if n < 26 then 65 + n
  else if n < 52 then 71 + n
  else if n < 62 then n - 4
  else if n = 62 then 43
  else 47

/-- Decode a run of base64 data values (the `=` padding already removed):
full quads give 3 bytes, a trailing pair or triple gives 1 or 2 bytes, a
single leftover value is an error. -/
def b64Quads : List Nat → Option (List Nat)
  | [] => some []
  | [_] => none
  | [v0, v1] => some [(v0 % 64) * 4 + v1 / 16]
  | [v0, v1, v2] => some [(v0 % 64) * 4 + v1 / 16, v1 % 16 * 16 + v2 / 4]
  | v0 :: v1 :: v2 :: v3 :: rest =>
    match b64Quads rest with
    | none => none
    | some bs =>
      some (((v0 % 64) * 4 + v1 / 16) :: (v1 % 16 * 16 + v2 / 4)
        :: (v2 % 4 * 64 + v3 % 64) :: bs)

/-- Model of `base64.b64decode(s)` on canonical input: alphabet characters
followed by zero to two `=` padding bytes, total length a multiple of 4.
(Python additionally discards foreign bytes before this check; the inputs
this program feeds it, and all inputs used below, are canonical.)  Failure
is the `binascii.Error` raised on bad length or padding. -/
def b64decode (s : List Nat) : Option (List Nat) :=
  let pads := (s.reverse.takeWhile fun c => c == 61).length
  let body := s.take (s.length - pads)
  if pads ≤ 2 && s.length % 4 == 0
      && body.all fun c => (b64Val c).isSome then
    b64Quads (body.map fun c => (b64Val c).getD 0)
  else none

/-- Canonical base64 encoding (with `=` padding), used to build valid
`Program data:` payload lines. -/
def b64encode : List Nat → List Nat
  | [] => []
  | [b0] => [b64Char (b0 / 4), b64Char (b0 % 4 * 16), 61, 61]
  | [b0, b1] => [b64Char (b0 / 4), b64Char (b0 % 4 * 16 + b1 / 16),
      b64Char (b1 % 16 * 4), 61]
  | b0 :: b1 :: b2 :: rest =>
    b64Char (b0 / 4) :: b64Char (b0 % 4 * 16 + b1 / 16)
      :: b64Char (b1 % 16 * 4 + b2 / 64) :: b64Char (b2 % 64)
      :: b64encode rest

/-! Python string operations used by the log line filter. -/

/-- Python `needle in hay` (substring containment). -/
def strContains (hay needle : List Nat) : Bool :=
  match hay with
  | [] => needle.isEmpty
  | _ :: t => List.isPrefixOf needle hay || strContains t needle

/-- Python `s.split(sep)` for a nonempty separator: split at each
leftmost non-overlapping occurrence.  `fuel` bounds the recursion; it is
called with `s.length + 1`, which is always sufficient since every step
consumes at least one character. -/
def splitOnFuel (sep : List Nat) : Nat → List Nat → List Nat →
    List (List Nat)
  | 0, rem, cur => [cur.reverse ++ rem]
  | fuel + 1, rem, cur =>
    match rem with
    | [] => [cur.reverse]
    | c :: t =>
      if List.isPrefixOf sep (c :: t) then
        cur.reverse :: splitOnFuel sep fuel (List.drop sep.length (c :: t)) []
      else splitOnFuel sep fuel t (c :: cur)

/-- Python `s.split(sep)` (nonempty separator). -/
def pySplit (sep s : List Nat) : List (List Nat) :=
  splitOnFuel sep (s.length + 1) s []

/-! Metadata enricher: `fetch_token_metadata`. -/

/-- Sentinel "NA" as a string value. -/
def na : List Nat := ascii "NA"

/-- A JSON value found under one of the four metadata keys: either a
string or some non-string value (number, object, array, bool, null —
anything without a `.startswith` method and unequal to a string). -/
inductive JVal where
  | str (s : List Nat)
  | other
deriving DecidableEq

/-- The JSON document returned by the metadata host, restricted to the
four keys the code reads (`dict.get` of the others never happens). -/
structure JDoc where
  image : Option JVal
  twitter : Option JVal
  telegram : Option JVal
  website : Option JVal

/-- Outcome of `requests.get(uri, timeout=10)` as seen by the code:
either an exception (network error, timeout, too many redirects), or a
response with an HTTP status code and a body that may or may not parse as
JSON (`response.json()` raising is `none`). -/
inductive FetchOutcome where
  | err
  | ok (status : Nat) (body : Option JDoc)

/-- The four enriched fields. -/
structure Meta where
  image : JVal
  twitter : JVal
  telegram : JVal
  website : JVal
deriving DecidableEq

/-- All four fields "NA", the value built in the `except` branch. -/
def naMeta : Meta := ⟨.str na, .str na, .str na, .str na⟩

/-- Python `s.startswith(("http://", "https://"))`. -/
def startsHttp (s : List Nat) : Bool :=
  List.isPrefixOf (ascii "http://") s || List.isPrefixOf (ascii "https://") s

/-- One cleanup line for twitter/telegram:
`if v != "NA" and not v.startswith(("http://","https://")):
   v = pre + v.lstrip("@")`.
A non-string value passes the `!= "NA"` test and then raises
`AttributeError` at `.startswith` (returned as `none`). -/
def normSocial (pre : List Nat) (v : JVal) : Option JVal :=
  match v with
  | .str s =>
    if s = na then some (.str s)
    else if startsHttp s then some (.str s)
    else some (.str (pre ++ s.dropWhile fun c => c == 64))
  | .other => none

/-- The website cleanup line (no `lstrip("@")`). -/
def normWebsite (v : JVal) : Option JVal :=
  match v with
  | .str s =>
    if s = na then some (.str s)
    else if startsHttp s then some (.str s)
    else some (.str (ascii "https://" ++ s))
  | .other => none

/-- `fetch_token_metadata(uri)` given the outcome of the GET:
`raise_for_status` raises exactly for 4xx client and 5xx server errors,
i.e. for status 400..599, and for no other status (a 1xx/3xx or an
out-of-range 600..999 status line, which `http.client` accepts, passes
through); `response.json()` may raise; each key defaults to "NA" via
`dict.get`; then the three cleanup lines run in order (twitter,
telegram, website).  Any exception anywhere lands in the `except`
branch, which returns all four fields "NA". -/
def fetch_token_metadata (r : FetchOutcome) : Meta :=
  match r with
  | .err => naMeta
  | .ok status body =>
    if 400 ≤ status ∧ status ≤ 599 then naMeta
    else
      match body with
      | none => naMeta
      | some data =>
        let image := data.image.getD (.str na)
        let twitter := data.twitter.getD (.str na)
        let telegram := data.telegram.getD (.str na)
        let website := data.website.getD (.str na)
        match normSocial (ascii "https://twitter.com/") twitter,
            normSocial (ascii "https://t.me/") telegram,
            normWebsite website with
        | some t, some g, some w => ⟨image, t, g, w⟩
        | _, _, _ => naMeta

/-! The log line filter and pipeline: `process_logs_response`. -/

/-- A persisted record: the Python dict in insertion order
(keys are ASCII strings, values are the cell values). -/
abbrev Record := List (List Nat × JVal)

def instrMarker : List Nat := ascii "Instruction: InitializeMint2"
def dataMarker : List Nat := ascii "Program data: "
def vdtMarker : List Nat := ascii "Program data: vdt/"

/-- The event fields plus `mint_time`, in the dict insertion order the
code produces. -/
def eventPairs (ed : EventData) (now : List Nat) : Record :=
  [(ascii "name", .str ed.name), (ascii "symbol", .str ed.symbol),
   (ascii "uri", .str ed.uri), (ascii "mint", .str ed.mint),
   (ascii "bonding_curve", .str ed.bonding_curve),
   (ascii "user", .str ed.user), (ascii "mint_time", .str now)]

/-- The four metadata pairs appended by `event_data.update(metadata)`
(all four keys are fresh, so `update` appends them in this order). -/
def metaPairs (m : Meta) : Record :=
  [(ascii "image", m.image), (ascii "twitter", m.twitter),
   (ascii "telegram", m.telegram), (ascii "website", m.website)]

/-- The loop body applied to one matching log line: split off the payload
after "Program data: ", base64-decode it, hex it, parse it, then attach
`mint_time` and the fetched metadata.  Any exception (`none`) propagates
to the single `try` of `process_logs_response`. -/
def handle_entry (fetchO : List Nat → FetchOutcome) (now : List Nat)
    (log_entry : List Nat) : Option Record :=
  match (pySplit dataMarker log_entry).get? 1 with
  | none => none
  | some program_data_base64 =>
  match b64decode program_data_base64 with
  | none => none
  | some data_bytes =>
  match parse_event_data (bytesToHex data_bytes) with
  | none => none
  | some event_data =>
    some (eventPairs event_data now
      ++ metaPairs (fetch_token_metadata (fetchO event_data.uri)))

/-- The `for log_entry in logs` loop.  The whole loop runs inside ONE
`try`, so the first exception aborts the remaining iterations; records
produced by earlier iterations were already written. -/
def process_entries (fetchO : List Nat → FetchOutcome) (now : List Nat) :
    List (List Nat) → List Record
  | [] => []
  | e :: rest =>
    if strContains e dataMarker && ! List.isPrefixOf vdtMarker e then
      match handle_entry fetchO now e with
      | none => []
      | some r => r :: process_entries fetchO now rest
    else process_entries fetchO now rest

/-- `process_logs_response`, taking the `logs` array of the message (the
JSON envelope unwrapping `params.result.value.logs` is the transport
boundary), the ambient clock value used for `mint_time`, and the metadata
fetch as an oracle from URI to outcome.  Returns the list of records
passed to `write_to_csv`, in order. -/
def process_logs_response (fetchO : List Nat → FetchOutcome)
    (now : List Nat) (logs : List (List Nat)) : List Record :=
  if strContains (List.join logs) instrMarker then
    process_entries fetchO now logs
  else []

/-! Sink writer: `write_to_csv`. -/

/-- The header row `DictWriter.writeheader` produces: the field names of
the record being written, in dict order. -/
def headerRow (data : Record) : List JVal :=
  data.map fun p => JVal.str p.1

/-- The data row `DictWriter.writerow(data)` produces with
`fieldnames=data.keys()`: the values in field-name order. -/
def dataRow (data : Record) : List JVal :=
  data.map Prod.snd

/-- `write_to_csv(data)` as a function of the destination file content
(a list of rows): the file is opened in append mode, so `file.tell()` is
its current size and is 0 exactly when the file is empty or was just
created; in that case a header row is written first. -/
def write_to_csv (file : List (List JVal)) (data : Record) :
    List (List JVal) :=
  (if file.length = 0 then file ++ [headerRow data] else file) ++ [dataRow data]

/-! Supervisor: `logs_subscribe`, `main`, `restart_script` and the
`__main__` loop, as a trace semantics driven by a script of connection
outcomes. -/

/-- Retry settings from the source. -/
def max_retries : Nat := 20
def restart_delay : Nat := 5
def backoff_factor : Nat := 3

/-- What one pass of the `while True` body in `logs_subscribe` observes:
either `websockets.connect` (or the subscribe send) raises, or the
connection succeeds and `subscribe_to_logs` runs its receive loop until a
transport error, which it catches itself and returns normally. -/
inductive SessionOutcome where
  | connectFail
  | sessionEnd

/-- Observable actions of the process. -/
inductive Act where
  | connect
  | runSession
  | sleepSecs (n : Nat)
  | printMaxRetries
  | startMain
  | mainReturn
  | sleepRestart
  | execRestart
deriving DecidableEq

/-- `restart_script()`: sleep `restart_delay` then `os.execv`. -/
def restart_script : List Act := [Act.sleepRestart, Act.execRestart]

/-- The `while True` loop of `logs_subscribe`, driven by `script` (the
outcome of the `i`-th connection attempt) with the current `retry_count`;
`fuel` bounds the unrolling.  Returns the trace and the next attempt
index.  On a session that ends, `retry_count` is reset to 0 and the loop
continues; on a connect failure the counter is incremented, and once it
exceeds `max_retries` the function prints and `break`s — it returns
normally, it does not raise and does not restart anything. -/
def logs_subscribe (script : Nat → SessionOutcome) :
    Nat → Nat → Nat → List Act × Nat
  | 0, i, _ => ([], i)
  | fuel + 1, i, retry_count =>
    match script i with
    | .sessionEnd =>
      let r := logs_subscribe script fuel (i + 1) 0
      (Act.connect :: Act.runSession :: r.1, r.2)
    | .connectFail =>
      if retry_count + 1 > max_retries then
        ([Act.connect, Act.printMaxRetries], i + 1)
      else
        let r := logs_subscribe script fuel (i + 1) (retry_count + 1)
        (Act.connect ::
          Act.sleepSecs (min 30 (backoff_factor ^ (retry_count + 1)
            + (retry_count + 1) % 2)) :: r.1, r.2)

/-- One call of `asyncio.run(main())`: `main` awaits the single
`logs_subscribe` task with `return_when=FIRST_EXCEPTION`; `asyncio.wait`
never re-raises a task exception, and `logs_subscribe` catches its own,
so `main`'s `except` branch — the only caller of `restart_script` — is
unreachable and `main` returns normally. -/
def main_run (script : Nat → SessionOutcome) (fuel i : Nat) :
    List Act × Nat :=
  let r := logs_subscribe script fuel i 0
  (Act.startMain :: r.1 ++ [Act.mainReturn], r.2)

/-- The `while True` loop under `__main__`: run `main` again immediately
each time it returns (its `except`/`time.sleep` branch would require
`asyncio.run` itself to raise). -/
def top_loop (script : Nat → SessionOutcome) :
    Nat → Nat → Nat → List Act
  | 0, _, _ => []
  | n + 1, fuel, i =>
    let r := main_run script fuel i
    r.1 ++ top_loop script n fuel r.2

/-! Concrete data used by witnesses and counterexamples. -/

/-- A concrete valid synthetic event: name "A", symbol "B", uri "C",
zero tag and zero keys. -/
def exEvent : WireEvent :=
  ⟨List.replicate 8 0, [65], [66], [67],
   List.replicate 32 0, List.replicate 32 0, List.replicate 32 0⟩

/-- A log line carrying the instruction marker but no data marker. -/
def exMarkerLine : List Nat := ascii "Program log: Instruction: InitializeMint2"

/-- A data line whose payload fails base64 decoding. -/
def exBadLine : List Nat := ascii "Program data: A"

/-- A valid data line: the base64 of the synthetic event. -/
def exGoodLine : List Nat := dataMarker ++ b64encode (encodeEvent exEvent)

/-- A fetch oracle that always fails (network error). -/
def exFetch : List Nat → FetchOutcome := fun _ => .err

/-- A fixed clock value. -/
def exNow : List Nat := ascii "2026-01-01 00:00:00"

/-- The record the pipeline produces for `exGoodLine` under `exFetch`. -/
def exRecord : Record :=
  eventPairs ⟨[65], [66], [67], List.replicate 32 49,
    List.replicate 32 49, List.replicate 32 49⟩ exNow ++ metaPairs naMeta

/-- A valid synthetic event whose URI consists of a single NUL byte. -/
def exEventNulUri : WireEvent :=
  ⟨List.replicate 8 0, [65], [66], [0],
   List.replicate 32 0, List.replicate 32 0, List.replicate 32 0⟩

/-- Statement-side characterisation of the twitter cleanup. -/
def normTw (s : List Nat) : List Nat :=
  if s = na then s else if startsHttp s then s
  else ascii "https://twitter.com/" ++ s.dropWhile fun c => c == 64

/-- Statement-side characterisation of the telegram cleanup. -/
def normTg (s : List Nat) : List Nat :=
  if s = na then s else if startsHttp s then s
  else ascii "https://t.me/" ++ s.dropWhile fun c => c == 64

/-- Statement-side characterisation of the website cleanup. -/
def normWs (s : List Nat) : List Nat :=
  if s = na then s else if startsHttp s then s else ascii "https://" ++ s

/-- Is this line selected by the filter (has the data marker and is not
the excluded `vdt/` event)? -/
def selectedLine (l : List Nat) : Bool :=
  strContains l dataMarker && ! List.isPrefixOf vdtMarker l

/-- The eleven field names of every record the pipeline emits, in dict
insertion order. -/
def keys11 : List (List Nat) :=
  [ascii "name", ascii "symbol", ascii "uri", ascii "mint",
   ascii "bonding_curve", ascii "user", ascii "mint_time",
   ascii "image", ascii "twitter", ascii "telegram", ascii "website"]

/-- A script on which every connection attempt fails. -/
def failScript : Nat → SessionOutcome := fun _ => .connectFail

/-- Two concrete records with the same two fields. -/
def exRec1 : Record := [(ascii "a", .str [49]), (ascii "b", .str [50])]
def exRec2 : Record := [(ascii "a", .str [51]), (ascii "b", .str [52])]

set_option maxRecDepth 20000

/-! Slice helper lemmas. -/

theorem pySlice_length (data : List Nat) (o n : Nat) :
    (pySlice data o n).length = min n (data.length - o) := by
  simp [pySlice]

theorem pySlice_take (data : List Nat) (k o n : Nat) (h : o + n ≤ k) :
    pySlice (data.take k) o n = pySlice data o n := by
  simp only [pySlice, List.drop_take, List.take_take]
  congr 1
  omega

theorem pySlice_append (A B : List Nat) (o n : Nat) (hA : A.length = o) :
    pySlice (A ++ B) o n = B.take n := by
  simp [pySlice, ← hA, List.drop_left]

theorem lenBytes4_length (n : Nat) : (lenBytes4 n).length = 4 := by
  simp [lenBytes4]

theorem le32_lenBytes4 (L : Nat) (h : L < 4294967296) :
    le32 (L % 256) (L / 256 % 256) (L / 65536 % 256) (L / 16777216 % 256)
      = L := by
  unfold le32
  omega

/-! Behaviour of `read_length_prefixed_string` and `read_pubkey`. -/

theorem readLP_eq_none (data : List Nat) (o : Nat)
    (h : data.length < o + 4) :
    read_length_prefixed_string data o = none := by
  have hl : (pySlice data o 4).length < 4 := by
    rw [pySlice_length]; omega
  unfold read_length_prefixed_string
  rcases hsl : pySlice data o 4 with _ | ⟨a, _ | ⟨b, _ | ⟨c, _ | ⟨d, tl⟩⟩⟩⟩ <;>
    simp_all
  omega

theorem readLP_spec (data : List Nat) (o L : Nat)
    (hsl : pySlice data o 4 = lenBytes4 L) (hL : L < 4294967296) :
    read_length_prefixed_string data o =
      (if utf8Valid (pySlice data (o + 4) L) then
        some (pyStrip0 (pySlice data (o + 4) L), o + 4 + L) else none) := by
  unfold read_length_prefixed_string
  rw [hsl]
  simp only [lenBytes4]
  rw [le32_lenBytes4 L hL]

theorem readLP_take (data pre F rest : List Nat) (k o : Nat)
    (hdata : data = pre ++ (lenBytes4 F.length ++ (F ++ rest)))
    (ho : pre.length = o) (hF : F.length < 4294967296) (hk : o + 4 ≤ k) :
    read_length_prefixed_string (data.take k) o = none ∨
    ∃ v, read_length_prefixed_string (data.take k) o =
      some (v, o + 4 + F.length) := by
  have htl := List.take_left (lenBytes4 F.length) (F ++ rest)
  rw [lenBytes4_length] at htl
  have hsl : pySlice (data.take k) o 4 = lenBytes4 F.length := by
    rw [pySlice_take data k o 4 hk, hdata, pySlice_append _ _ o 4 ho, htl]
  rw [readLP_spec _ o F.length hsl hF]
  by_cases hv : utf8Valid (pySlice (data.take k) (o + 4) F.length) = true
  · right
    exact ⟨_, by rw [if_pos hv]⟩
  · left
    rw [if_neg hv]

theorem readLP_exact (A F B : List Nat) (o : Nat) (hA : A.length = o)
    (hF : F.length < 4294967296) (hv : utf8Valid F = true) :
    read_length_prefixed_string (A ++ (lenBytes4 F.length ++ (F ++ B))) o =
      some (pyStrip0 F, o + 4 + F.length) := by
  have htl := List.take_left (lenBytes4 F.length) (F ++ B)
  rw [lenBytes4_length] at htl
  have h1 : pySlice (A ++ (lenBytes4 F.length ++ (F ++ B))) o 4 =
      lenBytes4 F.length := by
    rw [pySlice_append _ _ o 4 hA, htl]
  have h2 : pySlice (A ++ (lenBytes4 F.length ++ (F ++ B))) (o + 4)
      F.length = F := by
    have hlen : (A ++ lenBytes4 F.length).length = o + 4 := by
      simp [hA, lenBytes4_length]
    rw [show A ++ (lenBytes4 F.length ++ (F ++ B)) =
        (A ++ lenBytes4 F.length) ++ (F ++ B) by simp,
      pySlice_append _ _ (o + 4) F.length hlen, List.take_left]
  rw [readLP_spec _ o F.length h1 hF, h2, if_pos hv]

theorem readPk_eq_none (data : List Nat) (o : Nat)
    (h : data.length < o + 32) :
    read_pubkey data o = none := by
  have : (pySlice data o 32).length ≠ 32 := by
    rw [pySlice_length]; omega
  simp [read_pubkey, this]

theorem readPk_take_some (data : List Nat) (o : Nat)
    (h : o + 32 ≤ data.length) :
    ∃ v, read_pubkey data o = some (v, o + 32) := by
  have : (pySlice data o 32).length = 32 := by
    rw [pySlice_length]; omega
  refine ⟨base58Encode (pySlice data o 32), ?_⟩
  simp [read_pubkey, this]

theorem readPk_exact (A K B : List Nat) (o : Nat) (hA : A.length = o)
    (hK : K.length = 32) :
    read_pubkey (A ++ (K ++ B)) o = some (base58Encode K, o + 32) := by
  have hsl : pySlice (A ++ (K ++ B)) o 32 = K := by
    rw [pySlice_append _ _ o 32 hA, ← hK, List.take_left]
  simp [read_pubkey, hsl, hK]

/-! Hex round trip. -/

theorem hexVal_hexChar (n : Nat) (h : n < 16) :
    hexVal (hexChar n) = some n := by
  interval_cases n <;> decide

theorem hexToBytes_bytesToHex (bs : List Nat) (h : ∀ b ∈ bs, b < 256) :
    hexToBytes (bytesToHex bs) = some bs := by
  induction bs with
  | nil => rfl
  | cons b t ih =>
    have hb : b < 256 := h b (List.mem_cons_self _ _)
    have h1 : hexVal (hexChar (b / 16)) = some (b / 16) :=
      hexVal_hexChar _ (by omega)
    have h2 : hexVal (hexChar (b % 16)) = some (b % 16) :=
      hexVal_hexChar _ (by omega)
    have ih' := ih fun x hx => h x (List.mem_cons_of_mem _ hx)
    simp [bytesToHex, hexToBytes, h1, h2, ih']
    omega

/-! Claim C1 and the decoder round trip. -/

theorem pyStrip0_eq_self (l : List Nat) (h : ∀ b ∈ l, b ≠ 0) :
    pyStrip0 l = l := by
  have h1 : ∀ m : List Nat, (∀ b ∈ m, b ≠ 0) →
      m.dropWhile (fun b => b == 0) = m := by
    intro m hm
    cases m with
    | nil => rfl
    | cons a t =>
      have ha : (a == 0) = false := by
        simp [hm a (List.mem_cons_self _ _)]
      simp [List.dropWhile_cons, ha]
  unfold pyStrip0
  rw [h1 l h, h1 l.reverse fun b hb => h b (List.mem_reverse.mp hb),
    List.reverse_reverse]

/-- C1: for every prefix-truncation of a valid encoded event buffer, the
decoder `parse_event_data` fails (raises, modelled as `none`) and never
returns a partial record.  Truncation inside a 4-byte length makes
`struct.unpack` raise; truncation inside string data makes the cursor
jump past the end of the buffer so the next read fails; truncation inside
a key makes `Pubkey.from_bytes` raise; and the invalid-UTF-8 case of a
truncated string also fails.  No partial record can escape because the
error aborts the whole decode. -/
theorem C1_decoder_rejects_truncation (e : WireEvent) (hv : e.Valid)
    (k : Nat) (hk : k < (encodeEvent e).length) :
    parse_event_data (bytesToHex ((encodeEvent e).take k)) = none := by
  have hbytes : ∀ b ∈ (encodeEvent e).take k, b < 256 := fun b hb =>
    hv.bytes_lt b (List.mem_of_mem_take hb)
  have hfull : (encodeEvent e).length =
      8 + 4 + e.name.length + 4 + e.symbol.length + 4 + e.uri.length
        + 96 := by
    simp [encodeEvent, hv.tag_len, hv.k1_len, hv.k2_len, hv.k3_len,
      lenBytes4_length]
    omega
  have hplen : ((encodeEvent e).take k).length = k := by
    rw [List.length_take]; omega
  have hmain : parseEventBytes ((encodeEvent e).take k) = none := by
    by_cases c1 : k < 8 + 4
    · have r1 := readLP_eq_none ((encodeEvent e).take k) 8 (by omega)
      simp [parseEventBytes, r1]
    push_neg at c1
    rcases readLP_take (encodeEvent e) e.tag e.name
        (lenBytes4 e.symbol.length ++ (e.symbol ++ (lenBytes4 e.uri.length
          ++ (e.uri ++ (e.k1 ++ (e.k2 ++ e.k3)))))) k 8
        (by simp [encodeEvent]) hv.tag_len hv.name_lt c1 with r1 | ⟨v1, r1⟩
    · simp [parseEventBytes, r1]
    by_cases c2 : k < 8 + 4 + e.name.length + 4
    · have r2 := readLP_eq_none ((encodeEvent e).take k)
        (8 + 4 + e.name.length) (by omega)
      simp [parseEventBytes, r1, r2]
    push_neg at c2
    rcases readLP_take (encodeEvent e)
        (e.tag ++ lenBytes4 e.name.length ++ e.name) e.symbol
        (lenBytes4 e.uri.length ++ (e.uri ++ (e.k1 ++ (e.k2 ++ e.k3))))
        k (8 + 4 + e.name.length)
        (by simp [encodeEvent])
        (by simp [hv.tag_len, lenBytes4_length] <;> omega)
        hv.symbol_lt (by omega) with r2 | ⟨v2, r2⟩
    · simp [parseEventBytes, r1, r2]
    by_cases c3 : k < 8 + 4 + e.name.length + 4 + e.symbol.length + 4
    · have r3 := readLP_eq_none ((encodeEvent e).take k)
        (8 + 4 + e.name.length + 4 + e.symbol.length) (by omega)
      simp [parseEventBytes, r1, r2, r3]
    push_neg at c3
    rcases readLP_take (encodeEvent e)
        (e.tag ++ lenBytes4 e.name.length ++ e.name
          ++ lenBytes4 e.symbol.length ++ e.symbol) e.uri
        (e.k1 ++ (e.k2 ++ e.k3))
        k (8 + 4 + e.name.length + 4 + e.symbol.length)
        (by simp [encodeEvent])
        (by simp [hv.tag_len, lenBytes4_length] <;> omega)
        hv.uri_lt (by omega) with r3 | ⟨v3, r3⟩
    · simp [parseEventBytes, r1, r2, r3]
    by_cases c4 : k <
        8 + 4 + e.name.length + 4 + e.symbol.length + 4 + e.uri.length + 32
    · have r4 := readPk_eq_none ((encodeEvent e).take k)
        (8 + 4 + e.name.length + 4 + e.symbol.length + 4 + e.uri.length)
        (by omega)
      simp [parseEventBytes, r1, r2, r3, r4]
    push_neg at c4
    obtain ⟨m1, r4⟩ := readPk_take_some ((encodeEvent e).take k)
      (8 + 4 + e.name.length + 4 + e.symbol.length + 4 + e.uri.length)
      (by omega)
    by_cases c5 : k <
        8 + 4 + e.name.length + 4 + e.symbol.length + 4 + e.uri.length + 64
    · have r5 := readPk_eq_none ((encodeEvent e).take k)
        (8 + 4 + e.name.length + 4 + e.symbol.length + 4 + e.uri.length
          + 32) (by omega)
      simp [parseEventBytes, r1, r2, r3, r4, r5]
    push_neg at c5
    obtain ⟨m2, r5⟩ := readPk_take_some ((encodeEvent e).take k)
      (8 + 4 + e.name.length + 4 + e.symbol.length + 4 + e.uri.length + 32)
      (by omega)
    have r6 := readPk_eq_none ((encodeEvent e).take k)
      (8 + 4 + e.name.length + 4 + e.symbol.length + 4 + e.uri.length + 64)
      (by omega)
    simp [parseEventBytes, r1, r2, r3, r4, r5, r6]
  unfold parse_event_data
  rw [hexToBytes_bytesToHex _ hbytes]
  simp [hmain]

/-- C1 witness: the truncation theorem applied to a concrete valid event
and a concrete cut. -/
theorem C1_witness :
    parse_event_data (bytesToHex ((encodeEvent exEvent).take 17)) = none :=
  C1_decoder_rejects_truncation exEvent
    ⟨by decide, by decide, by decide, by decide, by decide, by decide,
     by decide, by decide, by decide, by decide, by decide⟩
    17 (by decide)

/-- C6 (amended): decoder round trip on a full valid buffer, with all
THREE string fields (the URI included) free of NUL bytes: encoding per
the documented wire format and decoding with `parse_event_data`
reproduces the strings exactly and renders each 32-byte key as its
(deterministic) base58 address string. -/
theorem parse_encode_round_trip (e : WireEvent) (hv : e.Valid)
    (hn : ∀ b ∈ e.name, b ≠ 0) (hs : ∀ b ∈ e.symbol, b ≠ 0)
    (hu : ∀ b ∈ e.uri, b ≠ 0) :
    parse_event_data (bytesToHex (encodeEvent e)) =
      some ⟨e.name, e.symbol, e.uri, base58Encode e.k1, base58Encode e.k2,
        base58Encode e.k3⟩ := by
  have r1 := readLP_exact e.tag e.name
    (lenBytes4 e.symbol.length ++ (e.symbol ++ (lenBytes4 e.uri.length
      ++ (e.uri ++ (e.k1 ++ (e.k2 ++ e.k3)))))) 8 hv.tag_len
    hv.name_lt hv.name_utf8
  rw [show e.tag ++ (lenBytes4 e.name.length ++ (e.name
      ++ (lenBytes4 e.symbol.length ++ (e.symbol ++ (lenBytes4 e.uri.length
      ++ (e.uri ++ (e.k1 ++ (e.k2 ++ e.k3)))))))) = encodeEvent e by
    simp [encodeEvent]] at r1
  have r2 := readLP_exact (e.tag ++ lenBytes4 e.name.length ++ e.name)
    e.symbol (lenBytes4 e.uri.length ++ (e.uri ++ (e.k1 ++ (e.k2 ++ e.k3))))
    (8 + 4 + e.name.length)
    (by simp [hv.tag_len, lenBytes4_length] <;> omega)
    hv.symbol_lt hv.symbol_utf8
  rw [show e.tag ++ lenBytes4 e.name.length ++ e.name
      ++ (lenBytes4 e.symbol.length ++ (e.symbol ++ (lenBytes4 e.uri.length
      ++ (e.uri ++ (e.k1 ++ (e.k2 ++ e.k3)))))) = encodeEvent e by
    simp [encodeEvent]] at r2
  have r3 := readLP_exact (e.tag ++ lenBytes4 e.name.length ++ e.name
      ++ lenBytes4 e.symbol.length ++ e.symbol)
    e.uri (e.k1 ++ (e.k2 ++ e.k3))
    (8 + 4 + e.name.length + 4 + e.symbol.length)
    (by simp [hv.tag_len, lenBytes4_length] <;> omega)
    hv.uri_lt hv.uri_utf8
  rw [show e.tag ++ lenBytes4 e.name.length ++ e.name
      ++ lenBytes4 e.symbol.length ++ e.symbol
      ++ (lenBytes4 e.uri.length ++ (e.uri ++ (e.k1 ++ (e.k2 ++ e.k3))))
      = encodeEvent e by simp [encodeEvent]] at r3
  have r4 := readPk_exact (e.tag ++ lenBytes4 e.name.length ++ e.name
      ++ lenBytes4 e.symbol.length ++ e.symbol ++ lenBytes4 e.uri.length
      ++ e.uri) e.k1 (e.k2 ++ e.k3)
    (8 + 4 + e.name.length + 4 + e.symbol.length + 4 + e.uri.length)
    (by simp [hv.tag_len, lenBytes4_length] <;> omega) hv.k1_len
  rw [show e.tag ++ lenBytes4 e.name.length ++ e.name
      ++ lenBytes4 e.symbol.length ++ e.symbol ++ lenBytes4 e.uri.length
      ++ e.uri ++ (e.k1 ++ (e.k2 ++ e.k3)) = encodeEvent e by
    simp [encodeEvent]] at r4
  have r5 := readPk_exact (e.tag ++ lenBytes4 e.name.length ++ e.name
      ++ lenBytes4 e.symbol.length ++ e.symbol ++ lenBytes4 e.uri.length
      ++ e.uri ++ e.k1) e.k2 e.k3
    (8 + 4 + e.name.length + 4 + e.symbol.length + 4 + e.uri.length + 32)
    (by simp [hv.tag_len, lenBytes4_length, hv.k1_len] <;> omega) hv.k2_len
  rw [show e.tag ++ lenBytes4 e.name.length ++ e.name
      ++ lenBytes4 e.symbol.length ++ e.symbol ++ lenBytes4 e.uri.length
      ++ e.uri ++ e.k1 ++ (e.k2 ++ e.k3) = encodeEvent e by
    simp [encodeEvent]] at r5
  have r6 := readPk_exact (e.tag ++ lenBytes4 e.name.length ++ e.name
      ++ lenBytes4 e.symbol.length ++ e.symbol ++ lenBytes4 e.uri.length
      ++ e.uri ++ e.k1 ++ e.k2) e.k3 []
    (8 + 4 + e.name.length + 4 + e.symbol.length + 4 + e.uri.length + 64)
    (by simp [hv.tag_len, lenBytes4_length, hv.k1_len, hv.k2_len] <;> omega)
    hv.k3_len
  rw [show e.tag ++ lenBytes4 e.name.length ++ e.name
      ++ lenBytes4 e.symbol.length ++ e.symbol ++ lenBytes4 e.uri.length
      ++ e.uri ++ e.k1 ++ e.k2 ++ (e.k3 ++ []) = encodeEvent e by
    simp [encodeEvent]] at r6
  have hbytes : ∀ b ∈ encodeEvent e, b < 256 := hv.bytes_lt
  unfold parse_event_data
  rw [hexToBytes_bytesToHex _ hbytes]
  simp [parseEventBytes, r1, r2, r3, r4, r5, r6,
    pyStrip0_eq_self e.name hn, pyStrip0_eq_self e.symbol hs,
    pyStrip0_eq_self e.uri hu]

/-- C6 witness: round trip at the concrete valid event. -/
theorem C6_witness :
    parse_event_data (bytesToHex (encodeEvent exEvent)) =
      some ⟨exEvent.name, exEvent.symbol, exEvent.uri,
        base58Encode exEvent.k1, base58Encode exEvent.k2,
        base58Encode exEvent.k3⟩ :=
  parse_encode_round_trip exEvent
    ⟨by decide, by decide, by decide, by decide, by decide, by decide,
     by decide, by decide, by decide, by decide, by decide⟩
    (by decide) (by decide) (by decide)

/-- C6 counterexample: for a record whose URI string contains a NUL byte
the decode succeeds but does not reproduce the URI — the strip removes
the NUL, so the claim as stated (arbitrary URI string) fails. -/
theorem C6_counterexample :
    parse_event_data (bytesToHex (encodeEvent exEventNulUri)) =
      some ⟨[65], [66], [], List.replicate 32 49, List.replicate 32 49,
        List.replicate 32 49⟩ ∧
    exEventNulUri.uri ≠ [] := by
  exact ⟨by decide, by decide⟩

/-! Claim C5: what the strip in `read_length_prefixed_string` does. -/

/-- C5 counterexample: the claim says only trailing NUL padding is
stripped, leaving leading bytes unchanged; on the field bytes `[0, 65]`
(a leading NUL) the code returns `[65]`, not the `[0, 65]` that
trailing-only stripping would give. -/
theorem C5_counterexample :
    read_length_prefixed_string [2, 0, 0, 0, 0, 65] 0 = some ([65], 6) ∧
    stripTrailingNul [0, 65] = [0, 65] ∧
    ([65] : List Nat) ≠ [0, 65] := by
  exact ⟨by decide, by decide, by decide⟩

/-- C5 (amended): the decoder reads the `L` declared bytes as UTF-8 text
and strips NUL bytes from BOTH ends (Python `str.strip`), leaving
interior bytes unchanged, and advances the cursor by `4 + L`. -/
theorem C5_strip_both_ends (F B : List Nat) (hF : F.length < 4294967296)
    (hv : utf8Valid F = true) :
    read_length_prefixed_string (lenBytes4 F.length ++ (F ++ B)) 0 =
      some (pyStrip0 F, 4 + F.length) := by
  simpa using readLP_exact [] F B 0 rfl hF hv

/-- C5 witness: the both-ends theorem at a concrete field. -/
theorem C5_witness :
    read_length_prefixed_string
      (lenBytes4 ([0, 65] : List Nat).length ++ ([0, 65] ++ [9])) 0 =
      some (pyStrip0 [0, 65], 4 + ([0, 65] : List Nat).length) :=
  C5_strip_both_ends [0, 65] [9] (by decide) (by decide)

/-! Claims C7 and C9: the metadata enricher. -/

theorem normSocial_str (pre s : List Nat) :
    normSocial pre (.str s) = some (.str (if s = na then s
      else if startsHttp s then s
      else pre ++ s.dropWhile fun c => c == 64)) := by
  simp only [normSocial]
  split_ifs <;> rfl

theorem normWebsite_str (s : List Nat) :
    normWebsite (.str s) = some (.str (if s = na then s
      else if startsHttp s then s else ascii "https://" ++ s)) := by
  simp only [normWebsite]
  split_ifs <;> rfl

/-- C7 (amended): on a JSON body whose social keys are absent or hold
strings, and a status outside 400..599, each fetched value is normalized
fieldwise — a twitter value lacking an http/https prefix becomes
`https://twitter.com/` plus the value without leading `@`, telegram
likewise with `https://t.me/`, a bare website domain gets `https://`,
and an absent key (the `dict.get` default) yields "NA" for that key.
Exactly a 4xx/5xx status (what `raise_for_status` raises on — NOT every
non-2xx status, and no status outside 400..599) and a failed GET yield
all four fields "NA". -/
theorem C7_enricher_normalization :
    (∀ (status : Nat) (oi : Option JVal) (ot og ow : Option (List Nat)),
      ¬ (400 ≤ status ∧ status ≤ 599) →
      fetch_token_metadata (.ok status (some ⟨oi, ot.map JVal.str,
        og.map JVal.str, ow.map JVal.str⟩)) =
        ⟨oi.getD (.str na), .str (normTw (ot.getD na)),
         .str (normTg (og.getD na)), .str (normWs (ow.getD na))⟩) ∧
    (∀ (status : Nat) (body : Option JDoc), 400 ≤ status → status ≤ 599 →
      fetch_token_metadata (.ok status body) = naMeta) ∧
    fetch_token_metadata .err = naMeta := by
  refine ⟨?_, ?_, rfl⟩
  · intro status oi ot og ow hn4
    rcases ot with _ | t <;> rcases og with _ | g <;> rcases ow with _ | w <;>
      simp [fetch_token_metadata, hn4, normSocial_str, normWebsite_str,
        normTw, normTg, normWs]
  · intro status body h4 h5
    simp only [fetch_token_metadata]
    rw [if_pos ⟨h4, h5⟩]

/-- C7 witness: the normalization theorem at the spec's concrete
examples, plus the 4xx and error cases. -/
theorem C7_witness :
    fetch_token_metadata (.ok 200 (some ⟨none,
        Option.map JVal.str (some (ascii "abc")),
        Option.map JVal.str (some (ascii "@xyz")),
        Option.map JVal.str none⟩)) =
      ⟨.str na, .str (normTw (ascii "abc")), .str (normTg (ascii "@xyz")),
        .str (normWs na)⟩ ∧
    normTw (ascii "abc") = ascii "https://twitter.com/abc" ∧
    normTg (ascii "@xyz") = ascii "https://t.me/xyz" ∧
    normWs na = na ∧
    fetch_token_metadata (.ok 404 none) = naMeta :=
  ⟨C7_enricher_normalization.1 200 none (some (ascii "abc"))
      (some (ascii "@xyz")) none (by omega),
   by decide, by decide, by decide,
   C7_enricher_normalization.2.1 404 none (by omega) (by omega)⟩

/-- C7 counterexample: a final status of 300 is non-2xx, yet
`raise_for_status` does not raise below 400, so the claim "a non-2xx
response yields all four fields NA" fails — the twitter value is
normalized and returned. -/
theorem C7_counterexample :
    fetch_token_metadata
        (.ok 300 (some ⟨none, some (.str (ascii "abc")), none, none⟩)) ≠
      naMeta ∧
    (fetch_token_metadata
        (.ok 300 (some ⟨none, some (.str (ascii "abc")), none, none⟩))).twitter
      = .str (ascii "https://twitter.com/abc") := by
  exact ⟨by decide, by decide⟩

/-- C9: a present but non-string value under twitter, telegram or website
passes the `!= "NA"` test and then raises `AttributeError` at
`.startswith`, landing in the `except` branch: the whole result is all
four fields "NA", discarding any keys already extracted — enrichment
failure is all-or-nothing. -/
theorem C9_nonstring_value_all_na (status : Nat) (d : JDoc)
    (h : d.twitter = some .other ∨ d.telegram = some .other ∨
      d.website = some .other) :
    fetch_token_metadata (.ok status (some d)) = naMeta := by
  unfold fetch_token_metadata
  by_cases h4 : 400 ≤ status ∧ status ≤ 599
  · simp [h4]
  simp only [if_neg h4]
  rcases h with h | h | h
  · rcases hg : normSocial (ascii "https://t.me/")
        (d.telegram.getD (.str na)) with _ | g <;>
      rcases hw : normWebsite (d.website.getD (.str na)) with _ | w <;>
        simp [h, normSocial, hg, hw]
  · rcases ht : normSocial (ascii "https://twitter.com/")
        (d.twitter.getD (.str na)) with _ | t <;>
      rcases hw : normWebsite (d.website.getD (.str na)) with _ | w <;>
        simp [h, normSocial, ht, hw]
  · rcases ht : normSocial (ascii "https://twitter.com/")
        (d.twitter.getD (.str na)) with _ | t <;>
      rcases hg : normSocial (ascii "https://t.me/")
        (d.telegram.getD (.str na)) with _ | g <;>
        simp [h, normWebsite, ht, hg]

/-- C9 witness: image and twitter hold strings, telegram holds a number —
everything is discarded and all four fields are "NA". -/
theorem C9_witness :
    fetch_token_metadata (.ok 200 (some ⟨some (.str (ascii "img")),
      some (.str (ascii "abc")), some .other, none⟩)) = naMeta :=
  C9_nonstring_value_all_na 200 _ (Or.inr (Or.inl rfl))

/-! Claims C2 and C4: the per-message pipeline. -/

theorem process_entries_cons (fetchO : List Nat → FetchOutcome)
    (now l : List Nat) (rest : List (List Nat)) :
    process_entries fetchO now (l :: rest) =
      if selectedLine l then
        match handle_entry fetchO now l with
        | none => []
        | some r => r :: process_entries fetchO now rest
      else process_entries fetchO now rest := by
  rfl

/-- C2 (amended): inside one message, a line that fails base64 decoding
or the decoder is logged and ABORTS the processing of the remaining
lines of that message (the whole `for` loop runs under one `try`);
records of the valid lines BEFORE the failing one were already written,
and — `process_logs_response` being invoked afresh per message — later
messages are unaffected. -/
theorem C2_line_failure_aborts_message (fetchO : List Nat → FetchOutcome)
    (now bad : List Nat) (pre post : List (List Nat))
    (hmark : strContains (List.join (pre ++ bad :: post)) instrMarker = true)
    (hpre : ∀ l ∈ pre, selectedLine l = false ∨
      ∃ r, handle_entry fetchO now l = some r)
    (hbadSel : selectedLine bad = true)
    (hbadFail : handle_entry fetchO now bad = none) :
    process_logs_response fetchO now (pre ++ bad :: post) =
      pre.filterMap fun l =>
        if selectedLine l then handle_entry fetchO now l else none := by
  unfold process_logs_response
  rw [if_pos hmark]
  clear hmark
  induction pre with
  | nil =>
    rw [List.nil_append, process_entries_cons, if_pos hbadSel, hbadFail]
    rfl
  | cons l t ih =>
    have ih' := ih fun x hx => hpre x (List.mem_cons_of_mem _ hx)
    rcases hpre l (List.mem_cons_self _ _) with hl | ⟨r, hr⟩
    · rw [List.cons_append, process_entries_cons, if_neg (by simp [hl]),
        ih']
      simp [hl]
    · by_cases hsel : selectedLine l = true
      · rw [List.cons_append, process_entries_cons, if_pos hsel, hr, ih']
        simp [hsel, hr]
      · rw [List.cons_append, process_entries_cons, if_neg hsel, ih']
        simp [Bool.not_eq_true _ ▸ hsel]

/-- C2 counterexample: a message with the instruction marker, then a data
line whose payload fails base64 decoding, then a fully valid data line.
The claim says the later valid line still produces its record; the code
produces nothing at all (the bad line aborts the loop), even though the
same valid line alone does produce its record. -/
theorem C2_counterexample :
    process_logs_response exFetch exNow
      [exMarkerLine, exBadLine, exGoodLine] = [] ∧
    process_logs_response exFetch exNow [exMarkerLine, exGoodLine] =
      [exRecord] := by
  exact ⟨by decide, by decide⟩

/-- C2 witness: the amended theorem at a concrete message, with the
marker line before the failing line. -/
theorem C2_witness :
    process_logs_response exFetch exNow
      [exMarkerLine, exBadLine, exGoodLine] =
      [exMarkerLine].filterMap fun l =>
        if selectedLine l then handle_entry exFetch exNow l else none :=
  C2_line_failure_aborts_message exFetch exNow exBadLine [exMarkerLine]
    [exGoodLine] (by decide)
    (fun l hl => by
      simp only [List.mem_singleton] at hl
      subst hl
      exact Or.inl (by decide))
    (by decide) (by decide)

theorem handle_entry_keys (fetchO : List Nat → FetchOutcome)
    (now l : List Nat) (r : Record)
    (h : handle_entry fetchO now l = some r) :
    r.map Prod.fst = keys11 := by
  unfold handle_entry at h
  rcases h1 : (pySplit dataMarker l).get? 1 with _ | payload <;>
    simp only [h1] at h
  · exact Option.noConfusion h
  rcases h2 : b64decode payload with _ | bs <;> simp only [h2] at h
  · exact Option.noConfusion h
  rcases h3 : parse_event_data (bytesToHex bs) with _ | ed <;>
    simp only [h3] at h
  · exact Option.noConfusion h
  rw [Option.some.injEq] at h
  subst h
  simp [eventPairs, metaPairs, keys11]

theorem process_entries_keys (fetchO : List Nat → FetchOutcome)
    (now : List Nat) (logs : List (List Nat)) (r : Record)
    (hr : r ∈ process_entries fetchO now logs) :
    r.map Prod.fst = keys11 := by
  induction logs with
  | nil => simp [process_entries] at hr
  | cons l t ih =>
    rw [process_entries_cons] at hr
    by_cases hsel : selectedLine l = true
    · rw [if_pos hsel] at hr
      rcases hh : handle_entry fetchO now l with _ | r0 <;> rw [hh] at hr
      · cases hr
      · rcases List.mem_cons.mp hr with hr1 | hr1
        · exact hr1 ▸ handle_entry_keys fetchO now l r0 hh
        · exact ih hr1
    · rw [if_neg hsel] at hr
      exact ih hr

/-- C4 (amended): every record passed to the sink writer has all ELEVEN
fields populated, in a fixed order (the six decoded fields, `mint_time`,
then the four metadata fields), and a metadata fetch that fails yields
the sentinel "NA" for all four metadata fields — never an absent or
omitted key. -/
theorem C4_eleven_fields :
    (∀ (fetchO : List Nat → FetchOutcome) (now : List Nat)
      (logs : List (List Nat)) (r : Record),
      r ∈ process_logs_response fetchO now logs →
      r.map Prod.fst = keys11) ∧
    fetch_token_metadata FetchOutcome.err = naMeta := by
  refine ⟨?_, rfl⟩
  intro fetchO now logs r hr
  unfold process_logs_response at hr
  by_cases hm : strContains (List.join logs) instrMarker = true
  · rw [if_pos hm] at hr
    exact process_entries_keys fetchO now logs r hr
  · rw [if_neg hm] at hr
    cases hr

/-- C4 counterexample: the pipeline record for one valid target-event
line has eleven populated fields, not ten — the spec's count omits
`mint_time`. -/
theorem C4_counterexample :
    process_logs_response exFetch exNow [exMarkerLine, exGoodLine] =
      [exRecord] ∧
    (exRecord.map Prod.fst).length = 11 ∧
    ¬ (exRecord.map Prod.fst).length = 10 := by
  exact ⟨by decide, by decide, by decide⟩

/-- C4 witness: the emitted record of a one-valid-line message has
exactly the eleven keys. -/
theorem C4_witness : exRecord.map Prod.fst = keys11 :=
  C4_eleven_fields.1 exFetch exNow [exMarkerLine, exGoodLine] exRecord
    (by decide)

/-! Claim C3: what happens when the retry ceiling is exceeded. -/

theorem logs_subscribe_no_restart (script : Nat → SessionOutcome) :
    ∀ fuel i r, ∀ a ∈ (logs_subscribe script fuel i r).1,
      a ≠ Act.execRestart ∧ a ≠ Act.sleepRestart := by
  intro fuel
  induction fuel with
  | zero => intro i r a ha; simp [logs_subscribe] at ha
  | succ f ih =>
    intro i r a ha
    rcases hs : script i with _ | _
    · by_cases hr : r + 1 > max_retries
      · rw [show (logs_subscribe script (f + 1) i r).1 =
            [Act.connect, Act.printMaxRetries] from by
          simp [logs_subscribe, hs, hr]] at ha
        rcases List.mem_cons.mp ha with rfl | ha2
        · exact ⟨by simp, by simp⟩
        rcases List.mem_cons.mp ha2 with rfl | ha3
        · exact ⟨by simp, by simp⟩
        · simp at ha3
      · rw [show (logs_subscribe script (f + 1) i r).1 = Act.connect ::
            Act.sleepSecs (min 30 (backoff_factor ^ (r + 1) + (r + 1) % 2))
              :: (logs_subscribe script f (i + 1) (r + 1)).1 from by
          simp [logs_subscribe, hs, hr]] at ha
        rcases List.mem_cons.mp ha with rfl | ha2
        · exact ⟨by simp, by simp⟩
        rcases List.mem_cons.mp ha2 with rfl | ha3
        · exact ⟨by simp, by simp⟩
        · exact ih (i + 1) (r + 1) a ha3
    · rw [show (logs_subscribe script (f + 1) i r).1 = Act.connect ::
          Act.runSession :: (logs_subscribe script f (i + 1) 0).1 from by
        simp [logs_subscribe, hs]] at ha
      rcases List.mem_cons.mp ha with rfl | ha2
      · exact ⟨by simp, by simp⟩
      rcases List.mem_cons.mp ha2 with rfl | ha3
      · exact ⟨by simp, by simp⟩
      · exact ih (i + 1) 0 a ha3

theorem top_loop_no_restart (script : Nat → SessionOutcome) :
    ∀ n fuel i, ∀ a ∈ top_loop script n fuel i,
      a ≠ Act.execRestart ∧ a ≠ Act.sleepRestart := by
  intro n
  induction n with
  | zero => intro fuel i a ha; simp [top_loop] at ha
  | succ m ih =>
    intro fuel i a ha
    rw [show top_loop script (m + 1) fuel i =
        (Act.startMain :: (logs_subscribe script fuel i 0).1
          ++ [Act.mainReturn])
          ++ top_loop script m fuel (logs_subscribe script fuel i 0).2
        from by simp [top_loop, main_run]] at ha
    rcases List.mem_append.mp ha with h | h
    · rcases List.mem_cons.mp h with rfl | h2
      · exact ⟨by simp, by simp⟩
      rcases List.mem_append.mp h2 with h3 | h3
      · exact logs_subscribe_no_restart script fuel i 0 a h3
      · rcases List.mem_singleton.mp h3 with rfl
        exact ⟨by simp, by simp⟩
    · exact ih fuel _ a h

/-- C3 (amended): once the retry counter exceeds `max_retries`,
`logs_subscribe` prints the give-up message and returns normally
(`break`); the `__main__` loop then starts `main` again IMMEDIATELY —
the process re-loops in place, with no cooldown sleep and no re-exec:
`restart_script` (sleep + `os.execv`) is never invoked on any path of
the supervisor. -/
theorem C3_gave_up_reloops_in_place :
    (∀ (script : Nat → SessionOutcome) (i retry fuel : Nat),
      max_retries ≤ retry → script i = .connectFail →
      logs_subscribe script (fuel + 1) i retry =
        ([Act.connect, Act.printMaxRetries], i + 1)) ∧
    (∀ (script : Nat → SessionOutcome) (n fuel i : Nat),
      Act.execRestart ∉ top_loop script n fuel i ∧
      Act.sleepRestart ∉ top_loop script n fuel i) ∧
    (∀ (script : Nat → SessionOutcome) (n fuel i : Nat),
      top_loop script (n + 1) fuel i =
        (main_run script fuel i).1
          ++ top_loop script n fuel (main_run script fuel i).2) := by
  refine ⟨?_, ?_, ?_⟩
  · intro script i retry fuel hretry hs
    have h20 : retry + 1 > max_retries := by
      simp only [max_retries] at hretry ⊢
      omega
    simp [logs_subscribe, hs, h20]
  · intro script n fuel i
    constructor
    · intro h
      exact (top_loop_no_restart script n fuel i _ h).1 rfl
    · intro h
      exact (top_loop_no_restart script n fuel i _ h).2 rfl
  · intro script n fuel i
    simp [top_loop]

/-- C3 counterexample: drive the whole process with permanently failing
connects.  The give-up transition happens (`printMaxRetries` is in the
trace), yet no re-exec and no restart cooldown ever occur, and `main` is
started twice — the claimed process-level restart by re-exec after a
cooldown is not what the code does. -/
theorem C3_counterexample :
    Act.printMaxRetries ∈ top_loop failScript 2 30 0 ∧
    Act.execRestart ∉ top_loop failScript 2 30 0 ∧
    Act.sleepRestart ∉ top_loop failScript 2 30 0 ∧
    (top_loop failScript 2 30 0).count Act.startMain = 2 := by
  exact ⟨by decide, by decide, by decide, by decide⟩

/-- C3 witness: the amended theorem at the concrete failing script. -/
theorem C3_witness :
    logs_subscribe failScript 5 0 20 = ([Act.connect, Act.printMaxRetries], 1)
      ∧ Act.execRestart ∉ top_loop failScript 3 40 0 :=
  ⟨C3_gave_up_reloops_in_place.1 failScript 0 20 4 (le_refl _) rfl,
   (C3_gave_up_reloops_in_place.2.1 failScript 3 40 0).1⟩

/-! Claims C8 and C10: the sink writer. -/

theorem lookup_keys_self (d : Record)
    (hnd : (d.map Prod.fst).Nodup) :
    (d.map Prod.fst).map (fun k => (List.lookup k d).getD (JVal.str na)) =
      d.map Prod.snd := by
  induction d with
  | nil => rfl
  | cons p t ih =>
    obtain ⟨k, v⟩ := p
    rw [List.map_cons, List.nodup_cons] at hnd
    simp only [List.map_cons]
    congr 1
    · simp [List.lookup]
    · rw [← ih hnd.2]
      apply List.map_congr_left
      intro x hx
      have hxk : (x == k) = false := by
        have : x ≠ k := fun he => hnd.1 (he ▸ hx)
        simp [this]
      simp [List.lookup, hxk]

/-- C8: writing to an empty (or nonexistent) destination first writes a
header row derived from the record's field names, then the data row;
a subsequent append to the now-nonempty file writes only a data row, in
the same column order (the second record's fields match the first's). -/
theorem C8_header_once (d1 d2 : Record)
    (hk : d1.map Prod.fst = d2.map Prod.fst)
    (hnd : (d2.map Prod.fst).Nodup) :
    write_to_csv (write_to_csv [] d1) d2 =
      [headerRow d1, dataRow d1,
       (d1.map Prod.fst).map fun k => (List.lookup k d2).getD (JVal.str na)]
      := by
  rw [hk, lookup_keys_self d2 hnd]
  simp [write_to_csv, headerRow, dataRow]

/-- C8 witness: the header-once theorem at two concrete records. -/
theorem C8_witness :
    write_to_csv (write_to_csv [] exRec1) exRec2 =
      [headerRow exRec1, dataRow exRec1,
       (exRec1.map Prod.fst).map fun k =>
         (List.lookup k exRec2).getD (JVal.str na)] :=
  C8_header_once exRec1 exRec2 (by decide) (by decide)

/-- C10: the header decision is a function of the file content at open
time only — `file.tell() == 0` in append mode.  A write to an empty file
always produces header-then-row (in particular a fresh header after the
file was deleted or truncated, regardless of any earlier write), and a
write to a nonempty file appends only the data row; so across a process
lifetime that truncates the file between appends, a header appears more
than once. -/
theorem C10_header_from_file_state :
    (∀ d : Record, write_to_csv [] d = [headerRow d, dataRow d]) ∧
    (∀ (f : List (List JVal)) (d : Record), f ≠ [] →
      write_to_csv f d = f ++ [dataRow d]) ∧
    (∀ d1 d2 : Record,
      write_to_csv (write_to_csv [] d1) d2 =
        [headerRow d1, dataRow d1, dataRow d2] ∧
      write_to_csv [] d2 = [headerRow d2, dataRow d2]) := by
  refine ⟨fun d => by simp [write_to_csv], fun f d hf => ?_,
    fun d1 d2 => ⟨by simp [write_to_csv], by simp [write_to_csv]⟩⟩
  have hlen : f.length ≠ 0 := fun h => hf (List.length_eq_zero.mp h)
  simp [write_to_csv, hlen]

/-- C10 witness: a fresh header is written after truncation, and no
header is written to a nonempty file. -/
theorem C10_witness :
    write_to_csv [[JVal.str na]] exRec1 = [[JVal.str na]] ++ [dataRow exRec1]
      ∧ write_to_csv [] exRec2 = [headerRow exRec2, dataRow exRec2] :=
  ⟨C10_header_from_file_state.2.1 [[JVal.str na]] exRec1 (by decide),
   (C10_header_from_file_state.2.2 exRec1 exRec2).2⟩

end Harvest
